import Mathlib

/-!
Shallow embedding of the Google Cloud Resource Manager client
(`google/cloud/resource_manager/client.py`) and of the generic pagination
mechanism it relies on.  The pieces of the repository that sit outside
`client.py` (the base `Iterator` and `Page` classes, the `Project` domain
object, the HTTP transport and the error types) are modelled from the
specification; every such definition carries a doc comment saying so.
Network effects are made explicit: operations that may talk to the server
return their result together with the list of requests they issued, and the
pagination loop returns the number of network calls it performed.
-/

set_option autoImplicit false

/-- Modelled from the spec: credentials and the HTTP transport are excluded
collaborators (spec section 1), so a client is the opaque configuration
bundle they are bound into, identified abstractly. -/
structure Client where
  cid : Nat
  deriving DecidableEq

/-- Modelled from the spec: the raw decoded JSON representation of one
project resource, holding the fields the library copies into the domain
object (spec sections 4.1 and 6). -/
structure RawProject where
  projectId : String
  name : Option String
  labels : List (String × String)
  projectNumber : Option Int
  lifecycleState : Option String
  deriving DecidableEq

/-- Modelled from the spec: the project domain object
(`google/cloud/resource_manager/project.py`, which is not under src/).  It
stores its id, display name, labels, the server metadata (number and
lifecycle status, absent until loaded) and a non-owning back-reference to
the owning client (spec sections 4.1 and 9). -/
structure Project where
  project_id : String
  name : Option String
  labels : Option (List (String × String))
  number : Option Int
  status : Option String
  client : Client
  deriving DecidableEq

/-- A query-string parameter value as handed to the transport: the Python
code may store a string, an integer, or — for the filter argument — a whole
mapping under a single key. -/
inductive ParamValue where
  | str (s : String)
  | int (n : Int)
  | dict (m : List (String × String))
  deriving DecidableEq

/-- Modelled from the spec: one HTTP request handed to the transport
capability, carrying a method, a path and query parameters (spec
section 6). -/
structure Request where
  method : String
  path : String
  params : List (String × ParamValue)
  deriving DecidableEq

/-- Modelled from the spec: the error taxonomy surfaced to callers — a
distinct not-found kind, and a generic kind for any other non-2xx status
(spec section 7). -/
inductive ApiError where
  | notFound
  | other (status : Nat)
  deriving DecidableEq

/-- Modelled from the spec: the server's answer to a fetch-single-resource
call — a decoded resource body on success, or a non-2xx status code
(spec sections 6 and 7). -/
inductive FetchResult where
  | ok (resource : RawProject)
  | err (status : Nat)
  deriving DecidableEq

/-- Modelled from the spec: the decoded JSON body of one list-call
response — arrays of raw items keyed by field name, plus an optional
nextPageToken string field (spec section 6). -/
structure ListResponse where
  body : List (String × List RawProject)
  nextPageToken : Option String
  deriving DecidableEq

/-- Modelled from the spec: setting the server-returned metadata fields on
the domain object — the deserialization step applied both by the conversion
function and by a reload (spec section 4.1). -/
def Project.set_properties_from_api_repr (p : Project) (resource : RawProject) : Project :=
  { p with
    name := resource.name
    labels := some resource.labels
    number := resource.projectNumber
    status := resource.lifecycleState }

/-- Modelled from the spec: the conversion function from a raw item to a
domain object that references back to the owning client (spec sections 4.1
and 9). -/
def Project.from_api_repr (resource : RawProject) (client : Client) : Project :=
  Project.set_properties_from_api_repr
    { project_id := resource.projectId, name := none, labels := none,
      number := none, status := none, client := client } resource

/-- Modelled from the spec: reloading a project is a blocking
fetch-single-resource round trip — issue a GET on the project's path; a 404
status surfaces as the distinct not-found error, any other non-2xx status
as the generic error, and a success response repopulates the metadata
fields (spec sections 6 and 7). -/
def Project.reload (server : String → FetchResult) (p : Project) :
    Except ApiError Project × List Request :=
  let req : Request :=
    { method := "GET", path := "/projects/" ++ p.project_id, params := [] }
  match server p.project_id with
  | FetchResult.ok resource =>
      (Except.ok (p.set_properties_from_api_repr resource), [req])
  | FetchResult.err 404 => (Except.error ApiError.notFound, [req])
  | FetchResult.err s => (Except.error (ApiError.other s), [req])

/-- Embeds `Client.new_project` (client.py lines 52-79): construct a
project bound to the current client with the given id, name and labels.
The docstring notes that this does not make an API call, so the request log
is empty and no metadata is loaded. -/
def Client.new_project (c : Client) (project_id : String) (name : Option String)
    (labels : Option (List (String × String))) : Project × List Request :=
  ({ project_id := project_id, name := name, labels := labels,
     number := none, status := none, client := c }, [])

/-- Embeds `Client.fetch_project` (client.py lines 81-98): build a fresh
project via `new_project`, then reload its metadata from the server; any
error from the reload propagates to the caller. -/
def Client.fetch_project (c : Client) (server : String → FetchResult)
    (project_id : String) : Except ApiError Project × List Request :=
  let created := c.new_project project_id none none
  let reloaded := created.1.reload server
  (reloaded.1, created.2 ++ reloaded.2)

/-- Embeds `_ProjectIterator` (client.py lines 186-208) together with the
state of the base iterator class it inherits from, which is not under src/
and is modelled from the spec: execution context, extra query parameters,
current page token, optional maximum result count, running yielded count
and the number of pages fetched so far (spec sections 3 and 4.2). -/
structure _ProjectIterator where
  client : Client
  extra_params : List (String × ParamValue)
  page_token : Option String
  max_results : Option Nat
  num_results : Nat
  page_number : Nat
  deriving DecidableEq

/-- Embeds `_ProjectIterator.PATH` (client.py line 208). -/
def _ProjectIterator.PATH : String := "/projects"

/-- Embeds `Client.list_projects` (client.py lines 100-159): build the
extra query parameters — `pageSize` when a page size is given, and the
`filter_params` mapping stored as given under the `filter` key — and return
a fresh `_ProjectIterator`; no request is issued. -/
def Client.list_projects (c : Client)
    (filter_params : Option (List (String × String))) (page_size : Option Int) :
    _ProjectIterator × List Request :=
  let extra0 : List (String × ParamValue) := []
  let extra1 := match page_size with
    | some n => extra0 ++ [("pageSize", ParamValue.int n)]
    | none => extra0
  let extra2 := match filter_params with
    | some fp => extra1 ++ [("filter", ParamValue.dict fp)]
    | none => extra1
  ({ client := c, extra_params := extra2, page_token := none,
     max_results := none, num_results := 0, page_number := 0 }, [])

/-- Embeds `_ProjectPage.ITEMS_KEY` (client.py line 172): the
resource-specific response key holding the items array. -/
def _ProjectPage.ITEMS_KEY : String := "projects"

/-- Embeds `_ProjectPage._item_to_value` (client.py lines 174-183): convert
a raw JSON project to the native object, bound to the parent iterator's
client. -/
def _ProjectPage._item_to_value (client : Client) (resource : RawProject) : Project :=
  Project.from_api_repr resource client

/-- Modelled from the spec: the items array of one list response, extracted
from the entry of the decoded body named by the resource-specific
`ITEMS_KEY` (spec sections 4.1 and 6); a body lacking the key contributes
no items in this model. -/
def ListResponse.projectItems (r : ListResponse) : List RawProject :=
  (List.lookup _ProjectPage.ITEMS_KEY r.body).getD []

/-- Modelled from the spec: token normalization — an empty or absent
nextPageToken field means no more pages (spec section 4.1). -/
def normalizeToken : Option String → Option String
  | none => none
  | some t => if t = "" then none else some t

/-- Embeds `_ProjectPage` (client.py lines 162-183) over the base page
class modelled from the spec: one fetched batch of converted domain
objects, plus the token for the subsequent page (spec sections 2
and 4.1). -/
structure _ProjectPage where
  items : List Project
  next_page_token : Option String
  deriving DecidableEq

/-- Modelled from the spec: page construction — extract the items array
from the `ITEMS_KEY` entry of the response, convert each raw item with the
resource-specific conversion function, and record the normalized next-page
token (spec section 4.1). -/
def _ProjectPage.ofResponse (client : Client) (response : ListResponse) : _ProjectPage :=
  { items := response.projectItems.map (_ProjectPage._item_to_value client),
    next_page_token := normalizeToken response.nextPageToken }

/-- Modelled from the spec: the query parameters of a list request — the
stored page token (omitted when absent) merged with the iterator's extra
parameters (spec sections 4.2 and 6). -/
def _ProjectIterator.queryParams (it : _ProjectIterator) : List (String × ParamValue) :=
  (match it.page_token with
   | none => []
   | some t => [("pageToken", ParamValue.str t)]) ++ it.extra_params

/-- Modelled from the spec: the list request the iterator issues for its
next page — a GET on the resource path carrying the merged query
parameters (spec sections 4.2 and 6). -/
def _ProjectIterator.nextRequest (it : _ProjectIterator) : Request :=
  { method := "GET", path := _ProjectIterator.PATH, params := it.queryParams }

/-- Modelled from the spec: the iteration loop of the base iterator class
(spec section 4.2), run against the sequence of response bodies the server
returns to the successive list calls.  Each step fetches one page, yields
its converted items truncated to the remaining result budget, and continues
while the page reports a non-null next token; the budget is checked before
each fetch, so once it is exhausted no further network call is issued (spec
sections 3 and 8).  Returns the yielded items and the number of network
calls issued. -/
def iterate (client : Client) : Option Nat → List ListResponse → List Project × Nat
  | _, [] => ([], 0)
  | some 0, _ :: _ => ([], 0)
  | none, resp :: rest =>
    let page := _ProjectPage.ofResponse client resp
    match page.next_page_token with
    | none => (page.items, 1)
    | some _ =>
      let next := iterate client none rest
      (page.items ++ next.1, 1 + next.2)
  | some (m + 1), resp :: rest =>
    let page := _ProjectPage.ofResponse client resp
    let taken := page.items.take (m + 1)
    match page.next_page_token with
    | none => (taken, 1)
    | some _ =>
      let next := iterate client (some (m + 1 - taken.length)) rest
      (taken ++ next.1, 1 + next.2)

/-- Modelled from the spec: run an iterator to completion against the
server's response sequence, starting from its configured maximum result
count (spec section 4.2). -/
def _ProjectIterator.runAll (it : _ProjectIterator) (responses : List ListResponse) :
    List Project × Nat :=
  iterate it.client it.max_results responses

/-- All raw items across a response sequence, in server order. -/
def allItems : List ListResponse → List RawProject
  | [] => []
  | r :: rest => r.projectItems ++ allItems rest

/-- The number of pages a capped iteration fetches to supply its result
budget: none when the budget is zero, otherwise one page plus whatever the
remaining budget needs. -/
def pagesNeeded : Nat → List ListResponse → Nat
  | 0, _ => 0
  | _ + 1, [] => 0
  | m + 1, r :: rest => 1 + pagesNeeded (m + 1 - r.projectItems.length) rest

/-- A response sequence is chained when every response that is followed by
another carries a non-null (normalized) next-page token. -/
def chained : List ListResponse → Bool
  | [] => true
  | [_] => true
  | r :: r2 :: rest => (normalizeToken r.nextPageToken).isSome && chained (r2 :: rest)

/-- Sample client used to exercise the definitions at concrete inputs. -/
def sampleClient : Client := { cid := 0 }

/-- Sample raw project resource. -/
def rawA : RawProject :=
  { projectId := "purple-spaceship-123", name := some "Purple Spaceship",
    labels := [("env", "prod")], projectNumber := some 123,
    lifecycleState := some "ACTIVE" }

/-- Sample raw project resource. -/
def rawB : RawProject :=
  { projectId := "blue-submarine-456", name := some "Blue Submarine",
    labels := [], projectNumber := some 456, lifecycleState := some "ACTIVE" }

/-- Sample raw project resource. -/
def rawC : RawProject :=
  { projectId := "green-tractor-789", name := none, labels := [("env", "dev")],
    projectNumber := some 789, lifecycleState := some "DELETE_REQUESTED" }

/-- Sample first list response: two projects and a continuation token. -/
def respFirst : ListResponse :=
  { body := [(_ProjectPage.ITEMS_KEY, [rawA, rawB])],
    nextPageToken := some "token-1" }

/-- Sample final list response: one project and no continuation token. -/
def respLast : ListResponse :=
  { body := [(_ProjectPage.ITEMS_KEY, [rawC])], nextPageToken := none }

/-- Sample list response whose continuation token is the empty string. -/
def respEmptyTok : ListResponse :=
  { body := [(_ProjectPage.ITEMS_KEY, [rawA])], nextPageToken := some "" }

/-- Sample two-page server response sequence holding three projects. -/
def sampleResponses : List ListResponse := [respFirst, respLast]

/-- Sample iterator with no result cap, as built by a list call. -/
def uncappedIterator : _ProjectIterator :=
  (sampleClient.list_projects none none).1

/-- Sample iterator capped at two results. -/
def cappedIterator : _ProjectIterator :=
  { client := sampleClient, extra_params := [], page_token := none,
    max_results := some 2, num_results := 0, page_number := 0 }

/-! Helper lemmas shared by the claim theorems. -/

theorem ofResponse_items (c : Client) (r : ListResponse) :
    (_ProjectPage.ofResponse c r).items =
      r.projectItems.map (fun x => Project.from_api_repr x c) := rfl

theorem ofResponse_token (c : Client) (r : ListResponse) :
    (_ProjectPage.ofResponse c r).next_page_token = normalizeToken r.nextPageToken := rfl

theorem iterate_budget_zero (c : Client) (rs : List ListResponse) :
    iterate c (some 0) rs = ([], 0) := by
  cases rs <;> rfl

theorem iterate_cons_uncapped_stop (c : Client) (r : ListResponse)
    (rest : List ListResponse) (h : normalizeToken r.nextPageToken = none) :
    iterate c none (r :: rest) = ((_ProjectPage.ofResponse c r).items, 1) := by
  simp [iterate, ofResponse_token, h]

theorem iterate_cons_uncapped_cont (c : Client) (r : ListResponse)
    (rest : List ListResponse) (t : String)
    (h : normalizeToken r.nextPageToken = some t) :
    iterate c none (r :: rest) =
      ((_ProjectPage.ofResponse c r).items ++ (iterate c none rest).1,
        1 + (iterate c none rest).2) := by
  simp [iterate, ofResponse_token, h]

theorem iterate_cons_capped_stop (c : Client) (r : ListResponse)
    (rest : List ListResponse) (m : Nat)
    (h : normalizeToken r.nextPageToken = none) :
    iterate c (some (m + 1)) (r :: rest) =
      ((_ProjectPage.ofResponse c r).items.take (m + 1), 1) := by
  simp [iterate, ofResponse_token, h]

theorem iterate_cons_capped_cont (c : Client) (r : ListResponse)
    (rest : List ListResponse) (m : Nat) (t : String)
    (h : normalizeToken r.nextPageToken = some t) :
    iterate c (some (m + 1)) (r :: rest) =
      (((_ProjectPage.ofResponse c r).items.take (m + 1)) ++
          (iterate c
            (some (m + 1 - ((_ProjectPage.ofResponse c r).items.take (m + 1)).length))
            rest).1,
        1 + (iterate c
            (some (m + 1 - ((_ProjectPage.ofResponse c r).items.take (m + 1)).length))
            rest).2) := by
  simp [iterate, ofResponse_token, h]

theorem chained_tail (r : ListResponse) (rest : List ListResponse)
    (h : chained (r :: rest) = true) : chained rest = true := by
  cases rest with
  | nil => rfl
  | cons r2 rest2 =>
    simp [chained] at h
    exact h.2

theorem from_api_repr_inj (c : Client) :
    Function.Injective (fun x => Project.from_api_repr x c) := by
  intro a b h
  cases a
  cases b
  simp [Project.from_api_repr, Project.set_properties_from_api_repr] at h
  obtain ⟨h1, h2, h3, h4, h5⟩ := h
  simp_all

theorem iterate_uncapped (c : Client) (rs : List ListResponse)
    (h : chained rs = true) :
    (iterate c none rs).1 = (allItems rs).map (fun x => Project.from_api_repr x c) := by
  induction rs with
  | nil => simp [iterate, allItems]
  | cons r rest ih =>
    cases htok : normalizeToken r.nextPageToken with
    | none =>
      cases rest with
      | nil =>
        rw [iterate_cons_uncapped_stop c r [] htok, ofResponse_items]
        simp [allItems]
      | cons r2 rest2 =>
        exfalso
        simp [chained, htok] at h
    | some t =>
      rw [iterate_cons_uncapped_cont c r rest t htok, ofResponse_items,
        ih (chained_tail r rest h)]
      simp [allItems]

theorem iterate_capped_spec (c : Client) (rs : List ListResponse) :
    ∀ M : Nat, chained rs = true → M < (allItems rs).length →
      (iterate c (some M) rs).1.length = M ∧
        (iterate c (some M) rs).2 = pagesNeeded M rs := by
  induction rs with
  | nil =>
    intro M _ h2
    simp [allItems] at h2
  | cons r rest ih =>
    intro M h1 h2
    have hlen : (allItems (r :: rest)).length =
        r.projectItems.length + (allItems rest).length := by
      simp [allItems]
    match M with
    | 0 =>
      rw [iterate_budget_zero]
      simp [pagesNeeded]
    | M' + 1 =>
      have hitems : (_ProjectPage.ofResponse c r).items.length =
          r.projectItems.length := by
        rw [ofResponse_items]; simp
      cases htok : normalizeToken r.nextPageToken with
      | none =>
        cases rest with
        | nil =>
          rw [iterate_cons_capped_stop c r [] M' htok]
          constructor
          · simp only [List.length_take, hitems]
            rw [hlen] at h2
            simp [allItems] at h2
            omega
          · simp only [pagesNeeded]
            have : M' + 1 - r.projectItems.length = 0 := by
              rw [hlen] at h2
              simp [allItems] at h2
              omega
            rw [this]
            simp [pagesNeeded]
        | cons r2 rest2 =>
          exfalso
          simp [chained, htok] at h1
      | some t =>
        rw [iterate_cons_capped_cont c r rest M' t htok]
        have htake : ((_ProjectPage.ofResponse c r).items.take (M' + 1)).length =
            min (M' + 1) r.projectItems.length := by
          simp [List.length_take, hitems]
        by_cases hML : M' + 1 ≤ r.projectItems.length
        · have htake1 : ((_ProjectPage.ofResponse c r).items.take (M' + 1)).length =
              M' + 1 := by omega
          rw [htake1]
          have hz : M' + 1 - (M' + 1) = 0 := by omega
          rw [hz, iterate_budget_zero]
          constructor
          · simp [htake1]
          · simp only [pagesNeeded]
            have : M' + 1 - r.projectItems.length = 0 := by omega
            rw [this]
            simp [pagesNeeded]
        · have htakeL : ((_ProjectPage.ofResponse c r).items.take (M' + 1)).length =
              r.projectItems.length := by omega
          rw [htakeL]
          have hrest : M' + 1 - r.projectItems.length < (allItems rest).length := by
            rw [hlen] at h2
            omega
          obtain ⟨ihlen, ihcalls⟩ :=
            ih (M' + 1 - r.projectItems.length) (chained_tail r rest h1) hrest
          constructor
          · simp only [List.length_append, htakeL, ihlen]
            omega
          · simp only [pagesNeeded, ihcalls]

/-! Claim theorems. -/

/-- C1: the claim says the filter_params mapping passed to
Client.list_projects is flattened into a single query-string filter
expression (key:value pairs joined with spaces) before being sent as the
filter query parameter.  Evaluating the embedded code at the claim's own
example input shows instead that the mapping is stored unflattened under
the filter key, and that the stored value is not the flattened string the
claim describes, in either key order. -/
theorem c1_filter_params_stored_unflattened :
    List.lookup "filter"
        ((Client.list_projects (Client.mk 0)
            (some [("name", "My Project"), ("labels.color", "*")]) none).1.extra_params)
      = some (ParamValue.dict [("name", "My Project"), ("labels.color", "*")]) ∧
    List.lookup "filter"
        ((Client.list_projects (Client.mk 0)
            (some [("name", "My Project"), ("labels.color", "*")]) none).1.extra_params)
      ≠ some (ParamValue.str "name:My Project labels.color:*") ∧
    List.lookup "filter"
        ((Client.list_projects (Client.mk 0)
            (some [("name", "My Project"), ("labels.color", "*")]) none).1.extra_params)
      ≠ some (ParamValue.str "labels.color:* name:My Project") := by
  refine ⟨rfl, ?_, ?_⟩ <;> decide

/-- C2: for every iterator with no max_results cap and every chained
sequence of server pages, iterating to completion yields exactly the
server-provided items converted in order — hence exactly N domain objects
for N total raw items, and no duplicates whenever the server items are
distinct (the conversion is injective). -/
theorem c2_uncapped_iteration_yields_all (it : _ProjectIterator)
    (rs : List ListResponse) (hmax : it.max_results = none)
    (hch : chained rs = true) :
    (it.runAll rs).1 =
        (allItems rs).map (fun x => Project.from_api_repr x it.client) ∧
      (it.runAll rs).1.length = (allItems rs).length ∧
      ((allItems rs).Nodup → (it.runAll rs).1.Nodup) := by
  have h1 : (it.runAll rs).1 =
      (allItems rs).map (fun x => Project.from_api_repr x it.client) := by
    rw [_ProjectIterator.runAll, hmax]
    exact iterate_uncapped it.client rs hch
  refine ⟨h1, ?_, ?_⟩
  · rw [h1]; simp
  · intro hnd
    rw [h1]
    exact hnd.map (from_api_repr_inj it.client)

/-- Witness for C2 at a concrete two-page, three-item server sequence. -/
theorem c2_witness :
    (uncappedIterator.runAll sampleResponses).1 =
        (allItems sampleResponses).map
          (fun x => Project.from_api_repr x uncappedIterator.client) ∧
      (uncappedIterator.runAll sampleResponses).1.length =
        (allItems sampleResponses).length ∧
      ((allItems sampleResponses).Nodup →
        (uncappedIterator.runAll sampleResponses).1.Nodup) :=
  c2_uncapped_iteration_yields_all uncappedIterator sampleResponses rfl (by decide)

/-- C3: a list call with page_size 10 produces an iterator whose next list
request carries pageSize as 10, and a list call with page_size omitted
produces a request carrying no pageSize parameter at all. -/
theorem c3_page_size_forwarded (c : Client)
    (fp : Option (List (String × String))) :
    List.lookup "pageSize" ((c.list_projects fp (some 10)).1.nextRequest.params)
      = some (ParamValue.int 10) ∧
    List.lookup "pageSize" ((c.list_projects fp none).1.nextRequest.params)
      = none := by
  cases fp <;> exact ⟨rfl, rfl⟩

/-- C4: for every iterator capped at max_results M and every chained server
sequence with more than M total items, iteration yields exactly M objects,
and the number of network calls issued equals the number of pages needed to
supply those M objects — once the cap is reached, no further call is made
regardless of the remaining pages. -/
theorem c4_max_results_caps_iteration (it : _ProjectIterator) (M : Nat)
    (rs : List ListResponse) (hmax : it.max_results = some M)
    (hch : chained rs = true) (hN : M < (allItems rs).length) :
    (it.runAll rs).1.length = M ∧ (it.runAll rs).2 = pagesNeeded M rs := by
  rw [_ProjectIterator.runAll, hmax]
  exact iterate_capped_spec it.client rs M hch hN

/-- Witness for C4: a cap of two against a three-item, two-page sequence
yields two objects with a single page fetch. -/
theorem c4_witness :
    (cappedIterator.runAll sampleResponses).1.length = 2 ∧
      (cappedIterator.runAll sampleResponses).2 = pagesNeeded 2 sampleResponses :=
  c4_max_results_caps_iteration cappedIterator 2 sampleResponses rfl (by decide)
    (by decide)

/-- C5: a response that omits the nextPageToken field, or carries an empty
one, gives a page whose next-page token is null, and uncapped iteration
reaching that page ends with exactly that page's items after exactly one
more network call — none for any pages beyond it. -/
theorem c5_absent_token_terminates (c : Client) (r : ListResponse)
    (rest : List ListResponse)
    (h : r.nextPageToken = none ∨ r.nextPageToken = some "") :
    (_ProjectPage.ofResponse c r).next_page_token = none ∧
      iterate c none (r :: rest) = ((_ProjectPage.ofResponse c r).items, 1) := by
  have htok : normalizeToken r.nextPageToken = none := by
    rcases h with h | h <;> rw [h] <;> simp [normalizeToken]
  refine ⟨?_, iterate_cons_uncapped_stop c r rest htok⟩
  rw [ofResponse_token]
  exact htok

/-- Witness for C5 at a page carrying an empty token, followed by a further
page that is never fetched. -/
theorem c5_witness :
    (_ProjectPage.ofResponse sampleClient respEmptyTok).next_page_token = none ∧
      iterate sampleClient none (respEmptyTok :: [respLast]) =
        ((_ProjectPage.ofResponse sampleClient respEmptyTok).items, 1) :=
  c5_absent_token_terminates sampleClient respEmptyTok [respLast] (Or.inr rfl)

/-- C6: whenever the server answers the fetch-single-resource request with
a 404 status, Client.fetch_project surfaces the distinct not-found error,
not the generic one. -/
theorem c6_fetch_project_not_found (c : Client) (server : String → FetchResult)
    (pid : String) (h : server pid = FetchResult.err 404) :
    (c.fetch_project server pid).1 = Except.error ApiError.notFound := by
  simp [Client.fetch_project, Client.new_project, Project.reload, h]

/-- Witness for C6 against a server that answers 404 to everything. -/
theorem c6_witness :
    ((Client.mk 0).fetch_project (fun _ => FetchResult.err 404)
        "no-such-project").1 = Except.error ApiError.notFound :=
  c6_fetch_project_not_found (Client.mk 0) (fun _ => FetchResult.err 404)
    "no-such-project" rfl

/-- C7: a page built from a list response takes its items from the
"projects" entry of the body, converts each raw item with
Project.from_api_repr, and every resulting domain object holds the owning
client as its back-reference. -/
theorem c7_page_converts_items (c : Client) (resp : ListResponse) :
    (_ProjectPage.ofResponse c resp).items =
        ((List.lookup "projects" resp.body).getD []).map
          (fun x => Project.from_api_repr x c) ∧
      ∀ p ∈ (_ProjectPage.ofResponse c resp).items, p.client = c := by
  constructor
  · rfl
  · intro p hp
    rw [ofResponse_items] at hp
    obtain ⟨x, _, rfl⟩ := List.mem_map.mp hp
    rfl

/-- Witness for C7 at a concrete two-item response. -/
theorem c7_witness :
    (_ProjectPage.ofResponse sampleClient respFirst).items =
        ((List.lookup "projects" respFirst.body).getD []).map
          (fun x => Project.from_api_repr x sampleClient) ∧
      ∀ p ∈ (_ProjectPage.ofResponse sampleClient respFirst).items,
        p.client = sampleClient :=
  c7_page_converts_items sampleClient respFirst

/-- C8: Client.new_project issues no request and returns a project whose
id, name, labels and client are exactly the given arguments, with the
server metadata fields not loaded. -/
theorem c8_new_project_is_local (c : Client) (pid : String)
    (name : Option String) (labels : Option (List (String × String))) :
    c.new_project pid name labels =
      ({ project_id := pid, name := name, labels := labels,
         number := none, status := none, client := c }, ([] : List Request)) := rfl

/-- C9: Client.list_projects issues no request itself for any combination
of arguments — it returns a fresh iterator that has fetched no page and
holds no page token — and with both arguments omitted the iterator's extra
query parameters are empty. -/
theorem c9_list_projects_is_lazy (c : Client)
    (fp : Option (List (String × String))) (ps : Option Int) :
    (c.list_projects fp ps).2 = [] ∧
      (c.list_projects fp ps).1.page_number = 0 ∧
      (c.list_projects fp ps).1.page_token = none ∧
      (c.list_projects none none).1.extra_params = [] :=
  ⟨rfl, rfl, rfl, rfl⟩

/-- C10: whenever the server answers the fetch with a resource body,
Client.fetch_project returns a project whose id is the given argument,
whose client is the calling client, and whose name, labels and metadata
fields are freshly populated from the server's resource by the reload. -/
theorem c10_fetch_project_success (c : Client) (server : String → FetchResult)
    (pid : String) (r : RawProject) (h : server pid = FetchResult.ok r) :
    (c.fetch_project server pid).1 =
      Except.ok { project_id := pid, name := r.name, labels := some r.labels,
                  number := r.projectNumber, status := r.lifecycleState,
                  client := c } := by
  simp [Client.fetch_project, Client.new_project, Project.reload,
    Project.set_properties_from_api_repr, h]

/-- Witness for C10 against a server that returns a concrete resource. -/
theorem c10_witness :
    ((Client.mk 0).fetch_project (fun _ => FetchResult.ok rawA)
        "purple-spaceship-123").1 =
      Except.ok { project_id := "purple-spaceship-123", name := rawA.name,
                  labels := some rawA.labels, number := rawA.projectNumber,
                  status := rawA.lifecycleState, client := Client.mk 0 } :=
  c10_fetch_project_success (Client.mk 0) (fun _ => FetchResult.ok rawA)
    "purple-spaceship-123" rawA rfl
